import Mathlib

/-!
Shallow embedding of the Drift Governance Controller of the `driftdriver`
repository (`src/driftdriver/health.py`, `src/driftdriver/policy.py`, and the
controller helpers in `src/driftdriver/cli.py`), together with theorems
settling the specification claims about it.

Python strings are modelled as `List Char` (`Str`); task records (Python
dicts) are modelled as a structure of optional fields, where `none` stands
for a missing key or a `None` value.  Wall-clock reads
(`datetime.now(timezone.utc)`) are modelled by threading an explicit
`now : Int` epoch-seconds parameter.
-/

set_option maxRecDepth 16384

namespace Driftdriver

/-- Python `str`, modelled as a list of characters. -/
abbrev Str := List Char

/-- Python `str(x or "")` for an optional string field: a missing key or `None`
maps to the empty string (so does `""` itself). -/
def strOr (v : Option Str) : Str :=
  match v with
  | none => []
  | some s => s

/-- Python `\s` for the ASCII range (space, tab, newline, CR, VT, FF). -/
def isPySpace (c : Char) : Bool :=
  c = ' ' || c = '\t' || c = '\n' || c = '\r' || c = '\x0b' || c = '\x0c'

/-- Python `str.strip()`: drop leading and trailing whitespace. -/
def pyStrip (s : Str) : Str :=
  ((s.dropWhile isPySpace).reverse.dropWhile isPySpace).reverse

/-- Python `str.lower()` (ASCII model). -/
def pyLower (s : Str) : Str :=
  s.map Char.toLower

/-- A task record, modelling the Python dict loaded from the task store.
`none` models a missing key or a `None` value. -/
structure Task where
  id : Option Str := none
  title : Option Str := none
  status : Option Str := none
  description : Option Str := none
  tags : Option (List Str) := none
  blocked_by : Option (List Str) := none
  created_at : Option Str := none
  not_before : Option Str := none
deriving DecidableEq

/-- Python `str(task.get("id") or "")`. -/
def idStr (t : Task) : Str := strOr t.id

/-- Model of `task_status` (health.py:17): `str(task.get("status") or "open")`. -/
def task_status (t : Task) : Str :=
  match t.status with
  | none => "open".toList
  | some s => if s = [] then "open".toList else s

/-- Model of `is_active` (health.py:21): status not in `{done, abandoned}`. -/
def is_active (t : Task) : Bool :=
  let s := task_status t
  !(s = "done".toList || s = "abandoned".toList)

/-- Python substring test `needle in hay` (also used for `re.search` of a
plain-literal pattern). -/
def containsSub (needle : Str) : Str → Bool
  | [] => needle.isEmpty
  | c :: rest => needle.isPrefixOf (c :: rest) || containsSub needle rest

/-- Model of `has_contract` (health.py:26): description contains the fenced
contract marker. -/
def has_contract (t : Task) : Bool :=
  containsSub ("```wg-contract".toList) (strOr t.description)

/-- The id-prefix alternation of `_DRIFT_ID_RE` (health.py:9). -/
def driftIdAlternatives : List Str :=
  ["drift-", "coredrift-", "specdrift-", "datadrift-", "archdrift-",
   "depsdrift-", "uxdrift-", "therapydrift-", "fixdrift-", "yagnidrift-",
   "redrift-", "speedrift-"].map String.toList

/-- Python `\w` for the ASCII range (Python word character). -/
def isWordChar (c : Char) : Bool :=
  c.isAlphanum || c = '_'

/-- One step of the case-insensitive `\bdrift\b` search of `_DRIFT_WORD_RE`
(health.py:12): does the word "drift" occur at the head of `s`, with a word
boundary on each side?  `prev` is the character just before `s`. -/
def driftWordAt (prev : Option Char) (s : Str) : Bool :=
  ("drift".toList).isPrefixOf (pyLower s)
    && (match prev with
        | none => true
        | some p => !isWordChar p)
    && (match s.drop 5 with
        | [] => true
        | d :: _ => !isWordChar d)

/-- Case-insensitive whole-word search for "drift" (`_DRIFT_WORD_RE.search`). -/
def hasDriftWord : Option Char → Str → Bool
  | _, [] => false
  | prev, c :: rest =>
    driftWordAt prev (c :: rest) || hasDriftWord (some c) rest

/-- The alternatives of `_DRIFT_TAG_RE` (health.py:13), searched as plain
substrings (no anchors, no boundaries). -/
def driftTagAlternatives : List Str :=
  ["drift", "therapy", "fix", "yagni", "redrift"].map String.toList

/-- Model of `is_drift_task` (health.py:31): id prefix match, else standalone word
"drift" in the title, else (when a tag list is present) a drift-pattern
substring in the comma-joined lowercased tags. -/
def is_drift_task (t : Task) : Bool :=
  let tid := idStr t
  if driftIdAlternatives.any (fun p => p.isPrefixOf tid) then
    true
  else
    let title := strOr t.title
    if hasDriftWord none title then
      true
    else
      match t.tags with
      | some tags =>
        let tagsText := List.intercalate (",".toList) (tags.map pyLower)
        driftTagAlternatives.any (fun p => containsSub p tagsText)
      | none => false

/-- Non-overlapping substring count, scanning left to right
(Python `str.count`; the needle here is always nonempty). -/
def countSub (needle : Str) : Str → Nat
  | [] => 0
  | c :: rest =>
    if h : needle ≠ [] ∧ needle.isPrefixOf (c :: rest) then
      1 + countSub needle ((c :: rest).drop needle.length)
    else
      countSub needle rest
termination_by s => s.length
decreasing_by
  · simp only [List.length_drop, List.length_cons]
    have hn : 0 < needle.length := List.length_pos.mpr h.1
    omega
  · simp

/-- Model of `redrift_depth` (health.py:48): count of "redrift-" in the id
(`str(task_id or "")` is the identity on our already-string input, except
that we keep the `or ""` collapse for the empty case, which is a no-op). -/
def redrift_depth (task_id : Str) : Nat :=
  countSub ("redrift-".toList) task_id

/-- The task index `tasks_by_id`: a Python dict modelled as an association
list with insertion-ordered keys and overwrite-on-duplicate semantics. -/
abbrev TaskIndex := List (Str × Task)

/-- Dict assignment `m[k] = v`: replace the value at an existing key in
place, otherwise append the new binding at the end. -/
def insertAssoc : TaskIndex → Str → Task → TaskIndex
  | [], k, v => [(k, v)]
  | (k', v') :: rest, k, v =>
    if k' = k then (k', v) :: rest else (k', v') :: insertAssoc rest k v

/-- Dict lookup `m.get(k)`. -/
def lookupIndex : TaskIndex → Str → Option Task
  | [], _ => none
  | (k', v) :: rest, k => if k' = k then some v else lookupIndex rest k

/-- Model of the dict comprehension `tasks_by_id` (dict comprehension:
later tasks overwrite earlier ones under the same id). -/
def buildIndex (tasks : List Task) : TaskIndex :=
  tasks.foldl (fun acc t => insertAssoc acc (idStr t) t) []

/-- Model of `blockers_done` (health.py:52): vacuously true for a missing /
non-list / empty `blocked_by`; otherwise every referenced id must resolve
in the index to a task whose status is `done`.  A missing blocker id gives
`false` (fail-closed). -/
def blockers_done (t : Task) (tasks_by_id : TaskIndex) : Bool :=
  match t.blocked_by with
  | none => true
  | some [] => true
  | some bs =>
    bs.all fun b =>
      match lookupIndex tasks_by_id b with
      | none => false
      | some blocker => task_status blocker = "done".toList

/-- One nested step of the `_dfs` closure of `detect_cycle_from`
(health.py:66): returns the cycle verdict together with the updated
`visited` set (which persists across sibling recursions in the source).
`fuel` only bounds the nesting depth; every chain of nested calls has
pairwise-distinct `cur` values, all but the last resolving in the index,
so a fuel of `index.length + 2` is never exhausted. -/
def dfsVisit (index : TaskIndex) : Nat → List Str → List Str → Str → Bool × List Str
  | 0, visited, _, _ => (true, visited)
  | fuel + 1, visited, stack, cur =>
    if cur ∈ stack then (true, visited)
    else if cur ∈ visited then (false, visited)
    else
      let blockers : List Str :=
        match lookupIndex index cur with
        | none => []
        | some node => (node.blocked_by).getD []
      blockers.foldl
        (fun acc b =>
          if acc.1 then acc
          else dfsVisit index fuel acc.2 (cur :: stack) b)
        (false, cur :: visited)

/-- Model of `detect_cycle_from` (health.py:66): DFS over `blocked_by` edges with a
recursion stack, rooted at `task_id`; the empty id returns false up front. -/
def detect_cycle_from (task_id : Str) (tasks_by_id : TaskIndex) : Bool :=
  if task_id = [] then false
  else (dfsVisit tasks_by_id (tasks_by_id.length + 2) [] [] task_id).1

/-- The stage alternation of `_REDRIFT_PREFIX_RE` (health.py:14). -/
def redriftStages : List Str :=
  ["analyze", "respec", "design", "build", "execute", "exec"].map String.toList

/-- One `(redrift (analyze|…|exec):\s*)` segment of `_REDRIFT_PREFIX_RE`:
consume `"redrift "`, a stage name, `":"`, then any run of whitespace.
The input has already been lowercased, so the IGNORECASE flag is inert. -/
def dropOneRedriftMarker (s : Str) : Option Str :=
  if ("redrift ".toList).isPrefixOf s then
    let rest := s.drop 8
    match redriftStages.find? (fun st => (st ++ [':']).isPrefixOf rest) with
    | some st => some ((rest.drop (st.length + 1)).dropWhile isPySpace)
    | none => none
  else none

/-- Iterate `dropOneRedriftMarker`.  The fuel only bounds the number of
stripped segments; each segment consumes at least 13 characters, so a fuel
of `s.length` is never exhausted. -/
def stripMarkersAux : Nat → Str → Str
  | 0, s => s
  | fuel + 1, s =>
    match dropOneRedriftMarker s with
    | none => s
    | some rest => stripMarkersAux fuel rest

/-- Model of `_REDRIFT_PREFIX_RE.sub("", s)`: strip the maximal leading chain of
redrift stage markers. -/
def stripRedriftMarkers (s : Str) : Str :=
  stripMarkersAux s.length s

/-- Model of `re.sub(r"\s+", " ", s)`: collapse each maximal whitespace run to a
single space (`prevSpace` remembers whether we are inside a run). -/
def collapseWsAux : Str → Bool → Str
  | [], _ => []
  | c :: rest, prevSpace =>
    if isPySpace c then
      if prevSpace then collapseWsAux rest true
      else ' ' :: collapseWsAux rest true
    else c :: collapseWsAux rest false

/-- Model of `normalize_drift_key` (health.py:94): lowercase and strip the title,
remove the leading redrift-marker chain, collapse whitespace, and fall
back to the lowercased id when the processed title is empty. -/
def normalize_drift_key (t : Task) : Str :=
  let title := pyLower (pyStrip (strOr t.title))
  let tid := pyLower (pyStrip (strOr t.id))
  let title :=
    if title = [] then title
    else pyStrip (collapseWsAux (stripRedriftMarkers title) false)
  if title = [] then tid else title

/-- A duplicate group record of `find_duplicate_open_drift_groups`. -/
structure DupGroup where
  key : Str
  count : Nat
  task_ids : List Str
deriving DecidableEq

/-- Model of `groups[key].append(task)` over an insertion-ordered dict of lists. -/
def addToGroup (acc : List (Str × List Task)) (key : Str) (t : Task) :
    List (Str × List Task) :=
  if acc.any (fun p => p.1 = key) then
    acc.map (fun p => if p.1 = key then (p.1, p.2 ++ [t]) else p)
  else
    acc ++ [(key, [t])]

/-- The grouping loop of `find_duplicate_open_drift_groups` (health.py:104):
active drift tasks with a nonempty normalized key, grouped by that key. -/
def groupDriftTasks (tasks : List Task) : List (Str × List Task) :=
  tasks.foldl
    (fun acc t =>
      if !is_drift_task t then acc
      else if !is_active t then acc
      else
        let key := normalize_drift_key t
        if key = [] then acc else addToGroup acc key t)
    []

/-- String comparison `a < b` by code point (Python `str` ordering). -/
def lexLt : Str → Str → Bool
  | [], [] => false
  | [], _ :: _ => true
  | _ :: _, [] => false
  | a :: xs, b :: ys =>
    if a.toNat < b.toNat then true
    else if b.toNat < a.toNat then false
    else lexLt xs ys

/-- String comparison `a ≤ b` by code point. -/
def lexLe : Str → Str → Bool
  | [], _ => true
  | _ :: _, [] => false
  | a :: xs, b :: ys =>
    if a.toNat < b.toNat then true
    else if b.toNat < a.toNat then false
    else lexLe xs ys

/-- The sort key `(-count, key)` of health.py:126, as the non-strict
relation used by Python's stable sort (ties compare as true). -/
def dupLe (a b : DupGroup) : Bool :=
  if a.count = b.count then lexLe a.key b.key
  else decide (b.count < a.count)

/-- The relation `dupLe` as a decidable relation for `List.insertionSort`. -/
def dupRel : DupGroup → DupGroup → Prop := fun a b => dupLe a b = true

instance : DecidableRel dupRel := fun a b => instDecidableEqBool _ _

/-- Model of `find_duplicate_open_drift_groups` (health.py:103): keep the groups of
size ≥ 2 (in key insertion order) and sort them by descending count, then
ascending key.  Python's `list.sort` is stable; `insertionSort` with a
non-strict total relation is the same stable sort. -/
def find_duplicate_open_drift_groups (tasks : List Task) : List DupGroup :=
  let out := (groupDriftTasks tasks).filterMap fun p =>
    if p.2.length ≤ 1 then none
    else some ⟨p.1, p.2.length, p.2.map idStr⟩
  List.insertionSort dupRel out

/-- Decimal digit string of a natural number. -/
def natToStr (n : Nat) : Str :=
  Nat.toDigits 10 n

/-- Decimal rendering of an integer (Python `f"{i}"`). -/
def intToStr (i : Int) : Str :=
  if i < 0 then '-' :: natToStr i.natAbs else natToStr i.toNat

/-- Digit-string value (the parsed fields are all-digit substrings). -/
def digitsToNat (s : Str) : Nat :=
  s.foldl (fun acc c => acc * 10 + (c.toNat - 48)) 0

/-- Parse exactly `n` decimal digits, returning the value and the rest. -/
def parseFixedNat (n : Nat) (s : Str) : Option (Nat × Str) :=
  let ds := s.take n
  if ds.length = n && ds.all Char.isDigit then some (digitsToNat ds, s.drop n)
  else none

/-- Expect a literal character. -/
def expectChar (c : Char) : Str → Option Str
  | [] => none
  | x :: rest => if x = c then some rest else none

/-- Gregorian leap year. -/
def isLeapYear (y : Int) : Bool :=
  (y % 4 = 0 && y % 100 ≠ 0) || y % 400 = 0

/-- Days in a month. -/
def daysInMonth (y : Int) (m : Nat) : Nat :=
  if m = 2 then (if isLeapYear y then 29 else 28)
  else if m = 4 || m = 6 || m = 9 || m = 11 then 30
  else 31

/-- Days between 1970-01-01 and `y-m-d` (proleptic Gregorian; the standard
era-based civil-calendar algorithm, with truncating division — all interior
operands are non-negative). -/
def daysFromCivil (y : Int) (m d : Int) : Int :=
  let y' := if m ≤ 2 then y - 1 else y
  let era := (if 0 ≤ y' then y' else y' - 399).tdiv 400
  let yoe := y' - era * 400
  let mp := (m + 9) % 12
  let doy := (153 * mp + 2).tdiv 5 + d - 1
  let doe := yoe * 365 + yoe.tdiv 4 - yoe.tdiv 100 + doy
  era * 146097 + doe - 719468

/-- Modelled from the standard library: `datetime.fromisoformat` on the
extended ISO-8601 subset `YYYY-MM-DD[<sep>HH[:MM[:SS[.f+]]][±HH[:MM[:SS]]]]`
followed by `int(dt.timestamp())`, where a naive result is interpreted as
UTC (`dt.replace(tzinfo=timezone.utc)`, as both call sites do).  Returns
`none` where `fromisoformat` raises.  The truncation of `int()` toward zero
accounts for a nonzero fractional-second part on pre-epoch instants. -/
def parseIsoEpoch (s : Str) : Option Int := do
  let (y, r1) ← parseFixedNat 4 s
  let r2 ← expectChar '-' r1
  let (mo, r3) ← parseFixedNat 2 r2
  let r4 ← expectChar '-' r3
  let (d, r5) ← parseFixedNat 2 r4
  if mo < 1 || 12 < mo then none
  else if d < 1 || daysInMonth (Int.ofNat y) mo < d then none
  else
    let dateDays := daysFromCivil (Int.ofNat y) (Int.ofNat mo) (Int.ofNat d)
    match r5 with
    | [] => pure (dateDays * 86400)
    | _sep :: r6 => do
      let (h, r7) ← parseFixedNat 2 r6
      let (mi, r8) ←
        match r7 with
        | ':' :: r => parseFixedNat 2 r
        | _ => pure ((0 : Nat), r7)
      let (sec, r9) ←
        match r8 with
        | ':' :: r => parseFixedNat 2 r
        | _ => pure ((0 : Nat), r8)
      let (fracNonzero, r10) ←
        match r9 with
        | '.' :: r =>
          let ds := r.takeWhile Char.isDigit
          if ds = [] then none
          else pure (ds.any (fun c => c ≠ '0'), r.dropWhile Char.isDigit)
        | _ => pure (false, r9)
      if 23 < h || 59 < mi || 59 < sec then none
      else do
        let offSecs : Int ←
          match r10 with
          | [] => pure (0 : Int)
          | sign :: r11 =>
            if sign = '+' || sign = '-' then do
              let (oh, r12) ← parseFixedNat 2 r11
              let (om, r13) ←
                match r12 with
                | ':' :: r => parseFixedNat 2 r
                | _ => pure ((0 : Nat), r12)
              let (os, r14) ←
                match r13 with
                | ':' :: r => parseFixedNat 2 r
                | _ => pure ((0 : Nat), r13)
              if r14 ≠ [] || 23 < oh || 59 < om || 59 < os then none
              else
                let total : Int := Int.ofNat (oh * 3600 + om * 60 + os)
                pure (if sign = '-' then -total else total)
            else none
        let base : Int :=
          dateDays * 86400 + Int.ofNat (h * 3600 + mi * 60 + sec) - offSecs
        pure (if fracNonzero && base < 0 then base + 1 else base)

/-- The shared timestamp-to-epoch conversion of `_task_epoch`
(health.py:130) and `_created_epoch` (cli.py:1012, an identical inline
copy): strip, return 0 when empty, rewrite a trailing `Z` to `+00:00`,
parse, and return 0 on parse failure. -/
def epochOfField (v : Option Str) : Int :=
  let value := pyStrip (strOr v)
  if value = [] then 0
  else
    let value :=
      if value.getLast? = some 'Z' then value.dropLast ++ ("+00:00".toList)
      else value
    match parseIsoEpoch value with
    | none => 0
    | some e => e

/-- Model of `_task_epoch` (health.py:130). -/
def _task_epoch (t : Task) : Int :=
  epochOfField t.created_at

/-- Model of `_future_not_before` (health.py:145): true iff `not_before` parses and
lies strictly after `now` (in whole epoch seconds, as both sides are passed
through `int(...)` in the source). -/
def _future_not_before (now : Int) (t : Task) : Bool :=
  let raw := pyStrip (strOr t.not_before)
  if raw = [] then false
  else
    let raw :=
      if raw.getLast? = some 'Z' then raw.dropLast ++ ("+00:00".toList)
      else raw
    match parseIsoEpoch raw with
    | none => false
    | some e => decide (now < e)

/-- Model of `_queue_priority` (health.py:160): first matching tier wins. -/
def _queue_priority (t : Task) : Nat :=
  let tid := idStr t
  let title := pyLower (strOr t.title)
  if ("drift-breaker-".toList).isPrefixOf tid then 100
  else if ("coredrift-pit-".toList).isPrefixOf tid then 90
  else if containsSub ("missing_contract".toList) title then 85
  else if ("drift-harden-".toList).isPrefixOf tid then 80
  else if ("drift-fix-".toList).isPrefixOf tid then 75
  else if ("drift-scope-".toList).isPrefixOf tid then 70
  else if ("redrift-".toList).isPrefixOf tid then 60
  else 50

/-- The flat summary record produced by `rank_ready_drift_queue`. -/
structure QueueEntry where
  task_id : Str
  title : Str
  status : Str
  priority : Nat
  created_at : Str
  blocked_by : List Str
deriving DecidableEq

/-- The readiness test of the filter loop in `rank_ready_drift_queue`
(health.py:183): drift, active, not future-gated, all blockers done. -/
def readyPred (now : Int) (idx : TaskIndex) (t : Task) : Bool :=
  is_drift_task t && is_active t && !_future_not_before now t
    && blockers_done t idx

/-- The `ready` list of `rank_ready_drift_queue`, in input order. -/
def readyTasks (now : Int) (tasks : List Task) : List Task :=
  tasks.filter (readyPred now (buildIndex tasks))

/-- The Python sort key `(-_queue_priority(t), _task_epoch(t), id)` as the
non-strict relation used by the stable sort (ties compare as true). -/
def rankLe (a b : Task) : Bool :=
  if _queue_priority a = _queue_priority b then
    if _task_epoch a = _task_epoch b then lexLe (idStr a) (idStr b)
    else decide (_task_epoch a < _task_epoch b)
  else decide (_queue_priority b < _queue_priority a)

/-- The relation `rankLe` as a decidable relation for `List.insertionSort`. -/
def rankRel : Task → Task → Prop := fun a b => rankLe a b = true

instance : DecidableRel rankRel := fun a b => instDecidableEqBool _ _

/-- The summary projection of `rank_ready_drift_queue` (health.py:197). -/
def queueProject (t : Task) : QueueEntry :=
  { task_id := idStr t
    title := strOr t.title
    status := task_status t
    priority := _queue_priority t
    created_at := strOr t.created_at
    blocked_by := (t.blocked_by.getD []).filter (fun s => !s.isEmpty) }

/-- Model of `rank_ready_drift_queue` (health.py:180): filter to ready drift tasks,
stable-sort by the priority key, truncate to `max(1, limit)` entries, and
project each task to a flat summary record. -/
def rank_ready_drift_queue (now : Int) (tasks : List Task) (limit : Int) :
    List QueueEntry :=
  let sorted := List.insertionSort rankRel (readyTasks now tasks)
  (sorted.take (max 1 limit).toNat).map queueProject

instance : Inhabited Task := ⟨{}⟩

/-- The scoreboard record of `compute_scoreboard` (health.py:210).  The two
ratio fields hold the exact rational value; the source additionally rounds
them to 4 places for display, which is not modelled (no claim reads them). -/
structure Scoreboard where
  status : Str
  tasks_total : Nat
  active_tasks : Nat
  drift_total : Nat
  active_drift : Nat
  ready_drift : Nat
  active_contract_coverage : ℚ
  active_drift_ratio : ℚ
  max_redrift_depth : Nat
  duplicate_open_drift_groups : List DupGroup
deriving DecidableEq

/-- Model of `compute_scoreboard` (health.py:210).  Python's float ratio and
literals 0.7 / 0.9 are modelled exactly over ℚ. -/
def compute_scoreboard (now : Int) (tasks : List Task) : Scoreboard :=
  let active := tasks.filter is_active
  let drift := tasks.filter is_drift_task
  let active_drift := drift.filter is_active
  let ready := rank_ready_drift_queue now tasks 10000
  let active_with_contract := (active.filter has_contract).length
  let active_total := active.length
  let contract_coverage : ℚ :=
    if active_total = 0 then 1
    else (active_with_contract : ℚ) / (active_total : ℚ)
  let max_depth := active_drift.foldl
    (fun acc t =>
      let tid := idStr t
      if ("redrift-".toList).isPrefixOf tid then max acc (redrift_depth tid)
      else acc)
    0
  let duplicate_groups := find_duplicate_open_drift_groups tasks
  let active_ratio : ℚ :=
    if active_total = 0 then 0
    else (active_drift.length : ℚ) / (active_total : ℚ)
  let status :=
    if contract_coverage < 7/10 ∨ ready.length > 20 ∨ max_depth > 2 then
      "risk".toList
    else if contract_coverage < 9/10 ∨ ready.length > 8 ∨ max_depth > 1
        ∨ duplicate_groups ≠ [] then
      "watch".toList
    else "healthy".toList
  { status := status
    tasks_total := tasks.length
    active_tasks := active_total
    drift_total := drift.length
    active_drift := active_drift.length
    ready_drift := ready.length
    active_contract_coverage := contract_coverage
    active_drift_ratio := active_ratio
    max_redrift_depth := max_depth
    duplicate_open_drift_groups := duplicate_groups }

/-- The constant `DEFAULT_ORDER` (policy.py:8). -/
def DEFAULT_ORDER : List Str :=
  ["coredrift", "specdrift", "datadrift", "archdrift", "depsdrift",
   "uxdrift", "therapydrift", "yagnidrift", "redrift"].map String.toList

/-- The constant `ALLOWED_MODES` (policy.py:20). -/
def ALLOWED_MODES : List Str :=
  ["observe", "advise", "redirect", "heal", "breaker"].map String.toList

/-- The `DriftPolicy` dataclass (policy.py:23). -/
structure DriftPolicy where
  schema : Int
  mode : Str
  order : List Str
  cooldown_seconds : Int
  max_auto_actions_per_hour : Int
  require_new_evidence : Bool
  max_auto_depth : Int
  contracts_auto_ensure : Bool
  updates_enabled : Bool
  updates_check_interval_seconds : Int
  updates_create_followup : Bool
  loop_max_redrift_depth : Int
  loop_max_ready_drift_followups : Int
  loop_block_followup_creation : Bool
deriving DecidableEq

/-- The fallback policy built inline by `load_drift_policy` when the file
is missing or fails to parse (policy.py:85 and policy.py:105). -/
def defaultDriftPolicy : DriftPolicy :=
  { schema := 1
    mode := "redirect".toList
    order := DEFAULT_ORDER
    cooldown_seconds := 1800
    max_auto_actions_per_hour := 2
    require_new_evidence := true
    max_auto_depth := 2
    contracts_auto_ensure := true
    updates_enabled := true
    updates_check_interval_seconds := 21600
    updates_create_followup := false
    loop_max_redrift_depth := 2
    loop_max_ready_drift_followups := 20
    loop_block_followup_creation := true }

/-- Parsed `[recursion]` table (`none` = key missing). -/
structure RecursionData where
  cooldown_seconds : Option Int := none
  max_auto_actions_per_hour : Option Int := none
  require_new_evidence : Option Bool := none
  max_auto_depth : Option Int := none
deriving DecidableEq

/-- Parsed `[contracts]` table. -/
structure ContractsData where
  auto_ensure : Option Bool := none
deriving DecidableEq

/-- Parsed `[updates]` table. -/
structure UpdatesData where
  enabled : Option Bool := none
  check_interval_seconds : Option Int := none
  create_followup : Option Bool := none
deriving DecidableEq

/-- Parsed `[loop_safety]` table. -/
structure LoopSafetyData where
  max_redrift_depth : Option Int := none
  max_ready_drift_followups : Option Int := none
  block_followup_creation : Option Bool := none
deriving DecidableEq

/-- The result of `tomllib.loads` on the policy file, typed per key
(`none` = key absent; a table that is present but not a dict behaves as
absent, matching the `isinstance(..., dict) else {}` guards).  Values of a
wrong primitive type would make the source's `int(...)` / `str(...)`
coercions raise before any policy is returned, so they carry no returned
policy and are outside this model. -/
structure PolicyData where
  schema : Option Int := none
  mode : Option Str := none
  order : Option (List Str) := none
  recursion : Option RecursionData := none
  contracts : Option ContractsData := none
  updates : Option UpdatesData := none
  loop_safety : Option LoopSafetyData := none
deriving DecidableEq

/-- The three ways the policy file content can present itself to
`load_drift_policy`: no file, unparsable TOML, or parsed data. -/
inductive PolicyLoad where
  | missing
  | unparsable
  | parsed (d : PolicyData)
deriving DecidableEq

/-- Model of `load_drift_policy` (policy.py:82): defaults when the file is missing
or unparsable, otherwise field-by-field extraction with sanitization
(mode allow-list, coredrift-first order completion, clamps at 0, and
`max_auto_depth` clamped at 1). -/
def load_drift_policy : PolicyLoad → DriftPolicy
  | .missing => defaultDriftPolicy
  | .unparsable => defaultDriftPolicy
  | .parsed d =>
    let schema := d.schema.getD 1
    let mode_raw := pyLower (pyStrip (d.mode.getD ("redirect".toList)))
    let mode := if ALLOWED_MODES.contains mode_raw then mode_raw
      else "redirect".toList
    let order :=
      match d.order with
      | some raw =>
        let o := (raw.map pyStrip).filter (fun s => s ≠ [])
        let o := if o.contains ("coredrift".toList) then o
          else "coredrift".toList :: o
        DEFAULT_ORDER.foldl
          (fun acc p => if acc.contains p then acc else acc ++ [p]) o
      | none => DEFAULT_ORDER
    let recd := d.recursion.getD {}
    let cooldown_seconds := recd.cooldown_seconds.getD 1800
    let cooldown_seconds := if cooldown_seconds < 0 then 0 else cooldown_seconds
    let max_auto_actions_per_hour := recd.max_auto_actions_per_hour.getD 2
    let max_auto_actions_per_hour :=
      if max_auto_actions_per_hour < 0 then 0 else max_auto_actions_per_hour
    let require_new_evidence := recd.require_new_evidence.getD true
    let max_auto_depth := recd.max_auto_depth.getD 2
    let max_auto_depth := if max_auto_depth < 1 then 1 else max_auto_depth
    let contracts := d.contracts.getD {}
    let contracts_auto_ensure := contracts.auto_ensure.getD true
    let updates := d.updates.getD {}
    let updates_enabled := updates.enabled.getD true
    let updates_check_interval_seconds := updates.check_interval_seconds.getD 21600
    let updates_check_interval_seconds :=
      if updates_check_interval_seconds < 0 then 0
      else updates_check_interval_seconds
    let updates_create_followup := updates.create_followup.getD false
    let ls := d.loop_safety.getD {}
    let loop_max_redrift_depth := ls.max_redrift_depth.getD 2
    let loop_max_redrift_depth :=
      if loop_max_redrift_depth < 0 then 0 else loop_max_redrift_depth
    let loop_max_ready_drift_followups := ls.max_ready_drift_followups.getD 20
    let loop_max_ready_drift_followups :=
      if loop_max_ready_drift_followups < 0 then 0
      else loop_max_ready_drift_followups
    let loop_block_followup_creation := ls.block_followup_creation.getD true
    { schema := schema
      mode := mode
      order := order
      cooldown_seconds := cooldown_seconds
      max_auto_actions_per_hour := max_auto_actions_per_hour
      require_new_evidence := require_new_evidence
      max_auto_depth := max_auto_depth
      contracts_auto_ensure := contracts_auto_ensure
      updates_enabled := updates_enabled
      updates_check_interval_seconds := updates_check_interval_seconds
      updates_create_followup := updates_create_followup
      loop_max_redrift_depth := loop_max_redrift_depth
      loop_max_ready_drift_followups := loop_max_ready_drift_followups
      loop_block_followup_creation := loop_block_followup_creation }

/-- The loop-safety verdict record of `_compute_loop_safety` (cli.py:822). -/
structure LoopSafetyVerdict where
  max_redrift_depth : Int
  observed_redrift_depth : Nat
  max_ready_drift_followups : Int
  ready_drift_followups : Nat
  blocked_by_cycle : Bool
  followups_blocked : Bool
  reasons : List Str
deriving DecidableEq

/-- Model of `_compute_loop_safety` (cli.py:822).  The snapshot load
(`load_workgraph`) is modelled by passing the task list directly. -/
def _compute_loop_safety (now : Int) (task_id : Str) (tasks : List Task)
    (policy : DriftPolicy) : LoopSafetyVerdict :=
  let tasks_by_id := buildIndex tasks
  let depth :=
    if ("redrift-".toList).isPrefixOf task_id then redrift_depth task_id else 0
  let max_depth := policy.loop_max_redrift_depth
  let max_depth := if max_depth < 0 then 0 else max_depth
  let ready_queue := rank_ready_drift_queue now tasks 10000
  let ready_count := ready_queue.length
  let max_ready := policy.loop_max_ready_drift_followups
  let max_ready := if max_ready < 0 then 0 else max_ready
  let has_cycle := detect_cycle_from task_id tasks_by_id
  let reasons : List Str :=
    (if (depth : Int) > max_depth then
      ["redrift_depth_exceeded (".toList ++ natToStr depth
        ++ " > ".toList ++ intToStr max_depth ++ ")".toList]
     else [])
    ++ (if (ready_count : Int) > max_ready then
      ["ready_drift_queue_exceeded (".toList ++ natToStr ready_count
        ++ " > ".toList ++ intToStr max_ready ++ ")".toList]
     else [])
    ++ (if has_cycle then ["blocked_by_cycle_detected".toList] else [])
  let block := policy.loop_block_followup_creation && !reasons.isEmpty
  { max_redrift_depth := max_depth
    observed_redrift_depth := depth
    max_ready_drift_followups := max_ready
    ready_drift_followups := ready_count
    blocked_by_cycle := has_cycle
    followups_blocked := block
    reasons := reasons }

/-- Python `str(task.get("status") or "")` — the raw-status reading used by
`_compact_plan` (unlike `task_status`, the empty fallback is `""`). -/
def statusRaw (t : Task) : Str := strOr t.status

/-- The grouping loop of `_compact_plan` (cli.py:1005): unlike
`find_duplicate_open_drift_groups`, an empty normalized key is not
skipped. -/
def groupTasksCompact (tasks : List Task) : List (Str × List Task) :=
  tasks.foldl
    (fun acc t =>
      if !is_drift_task t || !is_active t then acc
      else addToGroup acc (normalize_drift_key t) t)
    []

/-- The keep-selection sort key of `_compact_plan` (cli.py:1031):
`(0 if status == "in-progress" else 1, created_epoch, id)`, as the
non-strict relation of the stable sort. -/
def compactLe (a b : Task) : Bool :=
  let fa : Nat := if statusRaw a = "in-progress".toList then 0 else 1
  let fb : Nat := if statusRaw b = "in-progress".toList then 0 else 1
  if fa = fb then
    if _task_epoch a = _task_epoch b then lexLe (idStr a) (idStr b)
    else decide (_task_epoch a < _task_epoch b)
  else decide (fa < fb)

/-- The relation `compactLe` as a decidable relation for `List.insertionSort`. -/
def compactRel : Task → Task → Prop := fun a b => compactLe a b = true

instance : DecidableRel compactRel := fun a b => instDecidableEqBool _ _

/-- One duplicate group of a compaction plan. -/
structure CompactGroup where
  key : Str
  keep_task_id : Str
  abandon_task_ids : List Str
deriving DecidableEq

/-- The compaction plan record of `_compact_plan` (cli.py:1076). -/
structure CompactPlan where
  duplicate_groups : List CompactGroup
  depth_exceeded_redrift_task_ids : List Str
  abandon_task_ids : List Str
  ready_drift_before : Nat
  max_ready_drift : Int
  max_redrift_depth : Int
  defer_task_ids : List Str
deriving DecidableEq

/-- First-occurrence deduplication (used to model Python's `set(...)`
below; the order is irrelevant once sorted). -/
def dedupKeepFirst : List Str → List Str :=
  let rec go : List Str → List Str → List Str
    | [], _ => []
    | x :: rest, seen =>
      if seen.contains x then go rest seen else x :: go rest (x :: seen)
  fun l => go l []

/-- The relation `lexLe` as a decidable relation for `List.insertionSort`. -/
def strRel : Str → Str → Prop := fun a b => lexLe a b = true

instance : DecidableRel strRel := fun a b => instDecidableEqBool _ _

/-- Python `sorted(set(ids))`: the ascending list of the distinct ids.  `lexLe`
is total and antisymmetric, so the dedup order cannot be observed. -/
def sortedSet (ids : List Str) : List Str :=
  List.insertionSort strRel (dedupKeepFirst ids)

/-- The duplicate-group selection loop of `_compact_plan` (cli.py:1026). -/
def compactDuplicateGroups (tasks : List Task) : List CompactGroup :=
  (groupTasksCompact tasks).filterMap fun p =>
    if p.2.length ≤ 1 then none
    else
      let ordered := List.insertionSort compactRel p.2
      let keep := idStr ordered.headI
      let drop := ((ordered.drop 1).map idStr).filter (fun s => s ≠ [])
      if drop = [] then none
      else some (⟨p.1, keep, drop⟩ : CompactGroup)

/-- The over-depth recursive-task scan of `_compact_plan` (cli.py:1051). -/
def compactDepthExceededIds (tasks : List Task) (max_redrift_depth : Int) :
    List Str :=
  (tasks.filter fun t =>
    is_drift_task t && is_active t
      && ("redrift-".toList).isPrefixOf (idStr t)
      && decide (max 0 max_redrift_depth < (redrift_depth (idStr t) : Int))
      && statusRaw t ≠ "in-progress".toList).map idStr

/-- The accumulated `abandon_ids` of `_compact_plan`: the dropped members
of every duplicate group, then the over-depth recursive ids. -/
def compactAbandonIds (tasks : List Task) (max_redrift_depth : Int) :
    List Str :=
  (compactDuplicateGroups tasks).foldl (fun acc g => acc ++ g.abandon_task_ids) []
    ++ compactDepthExceededIds tasks max_redrift_depth

/-- The deferral candidates of `_compact_plan` (cli.py:1067): ready-queue
overflow beyond `max(0, max_ready)`, minus anything already abandoned. -/
def compactDeferIds (now : Int) (tasks : List Task) (max_ready : Int)
    (max_redrift_depth : Int) : List Str :=
  ((((rank_ready_drift_queue now tasks 10000).drop (max 0 max_ready).toNat).map
      (fun e => e.task_id)).filter (fun s => s ≠ [])).filter
    (fun tid => !(compactAbandonIds tasks max_redrift_depth).contains tid)

/-- Model of `_compact_plan` (cli.py:1004): pick a keep task per duplicate
group and abandon the rest, abandon over-depth recursive tasks that are not
in-progress, and defer the ready-queue overflow minus anything already
being abandoned.  `_created_epoch` (cli.py:1012) is an inline copy of
`_task_epoch` and is modelled by the shared `epochOfField`. -/
def _compact_plan (now : Int) (tasks : List Task) (max_ready : Int)
    (max_redrift_depth : Int) : CompactPlan :=
  { duplicate_groups := compactDuplicateGroups tasks
    depth_exceeded_redrift_task_ids :=
      sortedSet (compactDepthExceededIds tasks max_redrift_depth)
    abandon_task_ids := sortedSet (compactAbandonIds tasks max_redrift_depth)
    ready_drift_before := (rank_ready_drift_queue now tasks 10000).length
    max_ready_drift := max 0 max_ready
    max_redrift_depth := max 0 max_redrift_depth
    defer_task_ids := compactDeferIds now tasks max_ready max_redrift_depth }

/-- The external task store (`wg`), keyed by task id. -/
abbrev Store := List (Str × Task)

/-- The breaker-task description of `_ensure_breaker_task` (cli.py:454),
with the triggering task id and the invocation timestamp `ts` spliced in. -/
def breakerDesc (task_id ts : Str) : Str :=
  "Circuit-breaker escalation for repeated drift.\n\nOrigin task: ".toList
    ++ task_id
    ++ "\nTriggered at: ".toList ++ ts
    ++ "\n\nRun a bounded recovery pass:\n- review open drift follow-ups\n- tighten wg-contract touch scope\n- close or merge stale remediation tasks\n- re-run `./.workgraph/drifts check --task ".toList
    ++ task_id
    ++ " --write-log --create-followups`\n".toList

/-- The task record that `wg add` is asked to create (cli.py:466): title
`"breaker: <task_id>"`, the deterministic id, blocked-by the triggering
task, the recovery description and the `drift` / `breaker` tags.  The
store-assigned fields (status, created_at) are left unset. -/
def breakerTaskRecord (task_id ts : Str) : Task :=
  { id := some ("drift-breaker-".toList ++ task_id)
    title := some ("breaker: ".toList ++ task_id)
    description := some (breakerDesc task_id ts)
    tags := some ["drift".toList, "breaker".toList]
    blocked_by := some [task_id] }

/-- Result of one `_ensure_breaker_task` invocation: the returned id, the
store afterwards, and whether a `wg add` was issued. -/
structure EnsureResult where
  breaker_id : Str
  store : Store
  created : Bool
deriving DecidableEq

/-- Model of `_ensure_breaker_task` (cli.py:436) under sequential (race-free)
semantics: `wg show` and `wg add` observe the same store.  Modelled from
the spec: the store lookup (`wg show`) returns the task under the id or
not-found, and a successful `wg add` appends the new task (§6). -/
def ensure_breaker_task (st : Store) (task_id ts : Str) : EnsureResult :=
  let breaker_id := "drift-breaker-".toList ++ task_id
  match lookupIndex st breaker_id with
  | some _ => ⟨breaker_id, st, false⟩
  | none => ⟨breaker_id, st ++ [(breaker_id, breakerTaskRecord task_id ts)], true⟩

/-- Outcome of a racy `_ensure_breaker_task` invocation: either a returned
id, or a raised error escaping the function. -/
inductive EnsureOutcome where
  | ok (breaker_id : Str) (store : Store) (created : Bool)
  | raised (store : Store)
deriving DecidableEq

/-- Model of `_ensure_breaker_task` (cli.py:436) with a racing store: `wg show`
observes `stShow` while the later `wg add` observes `stCreate`.  Modelled
from the spec: `create_task` fails with NotCreatable when the id already
exists (§6); the source wraps only the `wg show` call in `try`/`except`,
so a failing `subprocess.check_call` for `wg add` raises
`CalledProcessError` out of the function, modelled by `.raised`. -/
def ensure_breaker_task_race (stShow stCreate : Store) (task_id ts : Str) :
    EnsureOutcome :=
  let breaker_id := "drift-breaker-".toList ++ task_id
  match lookupIndex stShow breaker_id with
  | some _ => .ok breaker_id stCreate false
  | none =>
    match lookupIndex stCreate breaker_id with
    | some _ => .raised stCreate
    | none =>
      .ok breaker_id (stCreate ++ [(breaker_id, breakerTaskRecord task_id ts)]) true

/-- Number of store entries under a given id. -/
def countKey (st : Store) (k : Str) : Nat :=
  (st.filter (fun p => p.1 = k)).length

/-! ### Order-theoretic facts about the sort relations -/

theorem charEq_of_toNat_eq {a b : Char} (h : a.toNat = b.toNat) : a = b :=
  Char.ext (UInt32.ext h)

theorem lexLe_total : ∀ a b : Str, lexLe a b = true ∨ lexLe b a = true
  | [], _ => by left; simp [lexLe]
  | _ :: _, [] => by right; simp [lexLe]
  | a :: xs, b :: ys => by
    by_cases h1 : a.toNat < b.toNat
    · left; simp [lexLe, h1]
    · by_cases h2 : b.toNat < a.toNat
      · right; simp [lexLe, h1, h2]
      · have ih := lexLe_total xs ys
        simpa [lexLe, h1, h2] using ih

theorem lexLe_trans : ∀ a b c : Str,
    lexLe a b = true → lexLe b c = true → lexLe a c = true
  | [], _, _, _, _ => by simp [lexLe]
  | _ :: _, [], _, h1, _ => by simp [lexLe] at h1
  | _ :: _, _ :: _, [], _, h2 => by simp [lexLe] at h2
  | a :: xs, b :: ys, c :: zs, h1, h2 => by
    simp only [lexLe] at h1 h2 ⊢
    split_ifs at h1 h2 ⊢ <;> first
      | rfl
      | omega
      | (exact lexLe_trans xs ys zs h1 h2)
      | simp_all

theorem lexLe_antisymm : ∀ a b : Str,
    lexLe a b = true → lexLe b a = true → a = b
  | [], [], _, _ => rfl
  | [], _ :: _, _, h2 => by simp [lexLe] at h2
  | _ :: _, [], h1, _ => by simp [lexLe] at h1
  | a :: xs, b :: ys, h1, h2 => by
    simp only [lexLe] at h1 h2
    by_cases g1 : a.toNat < b.toNat
    · rw [if_neg (by omega : ¬b.toNat < a.toNat), if_pos g1] at h2
      cases h2
    · by_cases g2 : b.toNat < a.toNat
      · rw [if_neg g1, if_pos g2] at h1
        cases h1
      · rw [if_neg g1, if_neg g2] at h1
        rw [if_neg g2, if_neg g1] at h2
        have hc : a = b := charEq_of_toNat_eq (by omega)
        have ht : xs = ys := lexLe_antisymm xs ys h1 h2
        rw [hc, ht]

theorem lexLt_of_le_of_ne : ∀ a b : Str,
    lexLe a b = true → a ≠ b → lexLt a b = true
  | [], [], _, hne => absurd rfl hne
  | [], _ :: _, _, _ => by simp [lexLt]
  | _ :: _, [], h1, _ => by simp [lexLe] at h1
  | a :: xs, b :: ys, h1, hne => by
    simp only [lexLe] at h1
    simp only [lexLt]
    by_cases g1 : a.toNat < b.toNat
    · rw [if_pos g1]
    · by_cases g2 : b.toNat < a.toNat
      · rw [if_neg g1, if_pos g2] at h1
        cases h1
      · rw [if_neg g1, if_neg g2] at h1 ⊢
        have hc : a = b := charEq_of_toNat_eq (by omega)
        refine lexLt_of_le_of_ne xs ys h1 (fun hxy => hne ?_)
        rw [hc, hxy]

/-- Uniqueness of a sorted arrangement: two sorted permutations of each
other coincide when the relation is antisymmetric on the members. -/
theorem sorted_perm_eq {α : Type} {r : α → α → Prop} :
    ∀ {l₁ l₂ : List α}, List.Perm l₁ l₂ → l₁.Pairwise r → l₂.Pairwise r →
      (∀ a ∈ l₁, ∀ b ∈ l₁, r a b → r b a → a = b) → l₁ = l₂ := by
  intro l₁
  induction l₁ with
  | nil =>
    intro l₂ hp _ _ _
    exact (List.Perm.eq_nil hp.symm).symm
  | cons a t₁ ih =>
    intro l₂ hp hs₁ hs₂ hanti
    cases l₂ with
    | nil => cases List.Perm.eq_nil hp
    | cons b t₂ =>
      have hab : a = b := by
        by_contra hne
        have ha2 : a ∈ b :: t₂ := hp.mem_iff.mp (List.mem_cons_self a t₁)
        have hb1 : b ∈ a :: t₁ := hp.symm.mem_iff.mp (List.mem_cons_self b t₂)
        have ha2' : a ∈ t₂ := by
          rcases List.mem_cons.mp ha2 with h | h
          · exact absurd h hne
          · exact h
        have hb1' : b ∈ t₁ := by
          rcases List.mem_cons.mp hb1 with h | h
          · exact absurd h.symm hne
          · exact h
        have hrab : r a b := (List.pairwise_cons.mp hs₁).1 b hb1'
        have hrba : r b a := (List.pairwise_cons.mp hs₂).1 a ha2'
        exact hne (hanti a (List.mem_cons_self a t₁) b
          (List.mem_cons.mpr (Or.inr hb1')) hrab hrba)
      subst hab
      have hp' : List.Perm t₁ t₂ := hp.cons_inv
      have ht := ih hp' (List.pairwise_cons.mp hs₁).2 (List.pairwise_cons.mp hs₂).2
        (fun x hx y hy => hanti x (List.mem_cons_of_mem a hx)
          y (List.mem_cons_of_mem a hy))
      rw [ht]

/-- Two members of a list with pairwise-distinct keys that share a key are
the same member. -/
theorem eq_of_key_eq_of_pairwise {α β : Type} {f : α → β} :
    ∀ {l : List α}, l.Pairwise (fun x y => f x ≠ f y) →
      ∀ {a b}, a ∈ l → b ∈ l → f a = f b → a = b := by
  intro l
  induction l with
  | nil => intro _ a b ha _ _; cases ha
  | cons x t ih =>
    intro hpw a b ha hb hf
    rcases List.mem_cons.mp ha with rfl | ha' <;>
      rcases List.mem_cons.mp hb with rfl | hb'
    · rfl
    · exact absurd hf ((List.pairwise_cons.mp hpw).1 b hb')
    · exact absurd hf.symm ((List.pairwise_cons.mp hpw).1 a ha')
    · exact ih (List.pairwise_cons.mp hpw).2 ha' hb' hf

theorem rankLe_total (a b : Task) : rankLe a b = true ∨ rankLe b a = true := by
  unfold rankLe
  by_cases h1 : _queue_priority a = _queue_priority b
  · rw [if_pos h1, if_pos h1.symm]
    by_cases h2 : _task_epoch a = _task_epoch b
    · rw [if_pos h2, if_pos h2.symm]
      exact lexLe_total _ _
    · rw [if_neg h2, if_neg (Ne.symm h2)]
      simp only [decide_eq_true_eq]
      omega
  · rw [if_neg h1, if_neg (Ne.symm h1)]
    simp only [decide_eq_true_eq]
    omega

theorem rankLe_trans (a b c : Task) (h1 : rankLe a b = true)
    (h2 : rankLe b c = true) : rankLe a c = true := by
  unfold rankLe at h1 h2 ⊢
  by_cases p1 : _queue_priority a = _queue_priority b <;>
    by_cases p2 : _queue_priority b = _queue_priority c
  · have p3 : _queue_priority a = _queue_priority c := p1.trans p2
    rw [if_pos p1] at h1
    rw [if_pos p2] at h2
    rw [if_pos p3]
    by_cases e1 : _task_epoch a = _task_epoch b <;>
      by_cases e2 : _task_epoch b = _task_epoch c
    · have e3 : _task_epoch a = _task_epoch c := e1.trans e2
      rw [if_pos e1] at h1
      rw [if_pos e2] at h2
      rw [if_pos e3]
      exact lexLe_trans _ _ _ h1 h2
    · rw [if_pos e1] at h1
      rw [if_neg e2] at h2
      simp only [decide_eq_true_eq] at h2
      rw [if_neg (by omega : ¬_task_epoch a = _task_epoch c)]
      simp only [decide_eq_true_eq]
      omega
    · rw [if_neg e1] at h1
      rw [if_pos e2] at h2
      simp only [decide_eq_true_eq] at h1
      rw [if_neg (by omega : ¬_task_epoch a = _task_epoch c)]
      simp only [decide_eq_true_eq]
      omega
    · rw [if_neg e1] at h1
      rw [if_neg e2] at h2
      simp only [decide_eq_true_eq] at h1 h2
      rw [if_neg (by omega : ¬_task_epoch a = _task_epoch c)]
      simp only [decide_eq_true_eq]
      omega
  · rw [if_pos p1] at h1
    rw [if_neg p2] at h2
    simp only [decide_eq_true_eq] at h2
    rw [if_neg (by omega : ¬_queue_priority a = _queue_priority c)]
    simp only [decide_eq_true_eq]
    omega
  · rw [if_neg p1] at h1
    rw [if_pos p2] at h2
    simp only [decide_eq_true_eq] at h1
    rw [if_neg (by omega : ¬_queue_priority a = _queue_priority c)]
    simp only [decide_eq_true_eq]
    omega
  · rw [if_neg p1] at h1
    rw [if_neg p2] at h2
    simp only [decide_eq_true_eq] at h1 h2
    rw [if_neg (by omega : ¬_queue_priority a = _queue_priority c)]
    simp only [decide_eq_true_eq]
    omega

/-- Mutual `rankLe` forces equal sort keys. -/
theorem rankLe_antisymm_key (a b : Task) (h1 : rankLe a b = true)
    (h2 : rankLe b a = true) :
    _queue_priority a = _queue_priority b ∧ _task_epoch a = _task_epoch b ∧
      idStr a = idStr b := by
  unfold rankLe at h1 h2
  by_cases p1 : _queue_priority a = _queue_priority b
  · rw [if_pos p1] at h1
    rw [if_pos p1.symm] at h2
    by_cases e1 : _task_epoch a = _task_epoch b
    · rw [if_pos e1] at h1
      rw [if_pos e1.symm] at h2
      exact ⟨p1, e1, lexLe_antisymm _ _ h1 h2⟩
    · rw [if_neg e1] at h1
      rw [if_neg (Ne.symm e1)] at h2
      simp only [decide_eq_true_eq] at h1 h2
      omega
  · rw [if_neg p1] at h1
    rw [if_neg (Ne.symm p1)] at h2
    simp only [decide_eq_true_eq] at h1 h2
    omega

instance : IsTotal Task rankRel := ⟨rankLe_total⟩

instance : IsTrans Task rankRel := ⟨rankLe_trans⟩

/-! ### Characterizing the dict model -/

/-- The binding that wins in a Python dict built left to right: the last
task in the list carrying the key (proof-side helper, not source code). -/
def lastMatch : List Task → Str → Option Task
  | [], _ => none
  | t :: rest, k =>
    match lastMatch rest k with
    | some u => some u
    | none => if idStr t = k then some t else none

theorem lookupIndex_cons (pk : Str) (pv : Task) (rest : TaskIndex) (k : Str) :
    lookupIndex ((pk, pv) :: rest) k =
      if pk = k then some pv else lookupIndex rest k := rfl

theorem insertAssoc_cons (pk : Str) (pv : Task) (rest : TaskIndex)
    (ki : Str) (v : Task) :
    insertAssoc ((pk, pv) :: rest) ki v =
      if pk = ki then (pk, v) :: rest
      else (pk, pv) :: insertAssoc rest ki v := rfl

theorem lookup_insertAssoc (m : TaskIndex) (ki : Str) (v : Task) (k : Str) :
    lookupIndex (insertAssoc m ki v) k =
      if ki = k then some v else lookupIndex m k := by
  induction m with
  | nil =>
    by_cases h : ki = k <;> simp [insertAssoc, lookupIndex, h]
  | cons p rest ih =>
    obtain ⟨pk, pv⟩ := p
    rw [insertAssoc_cons]
    by_cases h : pk = ki
    · subst h
      rw [if_pos rfl, lookupIndex_cons, lookupIndex_cons]
      by_cases h2 : pk = k <;> simp [h2]
    · rw [if_neg h, lookupIndex_cons, lookupIndex_cons, ih]
      by_cases h2 : pk = k
      · have hik : ¬ki = k := fun hik => h (h2.trans hik.symm)
        simp [h2, hik]
      · simp [h2]

theorem lookup_foldl_insert (l : List Task) :
    ∀ (m : TaskIndex) (k : Str),
      lookupIndex (l.foldl (fun acc t => insertAssoc acc (idStr t) t) m) k =
        match lastMatch l k with
        | some u => some u
        | none => lookupIndex m k := by
  induction l with
  | nil => intro m k; simp [lastMatch]
  | cons t rest ih =>
    intro m k
    simp only [List.foldl_cons, lastMatch]
    rw [ih]
    cases hres : lastMatch rest k with
    | some u => simp
    | none =>
      simp only [lookup_insertAssoc]
      by_cases h : idStr t = k
      · simp [h]
      · simp [h]

theorem lookup_buildIndex (l : List Task) (k : Str) :
    lookupIndex (buildIndex l) k = lastMatch l k := by
  unfold buildIndex
  rw [lookup_foldl_insert]
  cases lastMatch l k <;> simp [lookupIndex]

theorem lastMatch_mem {l : List Task} {k : Str} {t : Task}
    (h : lastMatch l k = some t) : t ∈ l ∧ idStr t = k := by
  induction l with
  | nil => cases h
  | cons x rest ih =>
    simp only [lastMatch] at h
    cases hres : lastMatch rest k with
    | some u =>
      rw [hres] at h
      cases h
      have := ih hres
      exact ⟨List.mem_cons_of_mem x this.1, this.2⟩
    | none =>
      rw [hres] at h
      by_cases hx : idStr x = k
      · rw [if_pos hx] at h
        obtain rfl : x = t := by injection h
        exact ⟨List.mem_cons_self _ _, hx⟩
      · rw [if_neg hx] at h
        cases h

theorem lastMatch_none {l : List Task} {k : Str}
    (h : lastMatch l k = none) : ∀ t ∈ l, idStr t ≠ k := by
  induction l with
  | nil => intro t ht; cases ht
  | cons x rest ih =>
    simp only [lastMatch] at h
    cases hres : lastMatch rest k with
    | some u => rw [hres] at h; cases h
    | none =>
      rw [hres] at h
      intro t ht
      rcases List.mem_cons.mp ht with rfl | ht'
      · intro hk
        rw [if_pos hk] at h
        cases h
      · exact ih hres t ht'

/-- With pairwise-distinct ids, the task index is invariant under
permutations of the snapshot list. -/
theorem lookup_buildIndex_perm {l₁ l₂ : List Task}
    (hp : List.Perm l₁ l₂)
    (hd : l₁.Pairwise (fun x y => idStr x ≠ idStr y)) (k : Str) :
    lookupIndex (buildIndex l₁) k = lookupIndex (buildIndex l₂) k := by
  have hd₂ : l₂.Pairwise (fun x y => idStr x ≠ idStr y) :=
    (hp.pairwise_iff (fun h => Ne.symm h)).mp hd
  rw [lookup_buildIndex, lookup_buildIndex]
  cases h1 : lastMatch l₁ k with
  | none =>
    cases h2 : lastMatch l₂ k with
    | none => rfl
    | some u =>
      have hu := lastMatch_mem h2
      exact absurd hu.2 (lastMatch_none h1 u (hp.symm.mem_iff.mp hu.1))
  | some t =>
    have htm := lastMatch_mem h1
    cases h2 : lastMatch l₂ k with
    | none =>
      exact absurd htm.2 (lastMatch_none h2 t (hp.mem_iff.mp htm.1))
    | some u =>
      have hum := lastMatch_mem h2
      have : t = u :=
        eq_of_key_eq_of_pairwise hd₂ (hp.mem_iff.mp htm.1) hum.1
          (htm.2.trans hum.2.symm)
      rw [this]

theorem all_lookup_congr (bs : List Str) {m₁ m₂ : TaskIndex}
    (h : ∀ k, lookupIndex m₁ k = lookupIndex m₂ k) (f : Option Task → Bool) :
    (bs.all fun b => f (lookupIndex m₁ b)) =
      (bs.all fun b => f (lookupIndex m₂ b)) := by
  induction bs with
  | nil => rfl
  | cons b rest ih => simp [List.all_cons, ih, h b]

/-- The readiness verdict only depends on the index through lookups. -/
theorem blockers_done_congr (t : Task) {m₁ m₂ : TaskIndex}
    (h : ∀ k, lookupIndex m₁ k = lookupIndex m₂ k) :
    blockers_done t m₁ = blockers_done t m₂ := by
  unfold blockers_done
  cases t.blocked_by with
  | none => rfl
  | some bs =>
    cases bs with
    | nil => rfl
    | cons b rest =>
      exact all_lookup_congr (b :: rest) h
        (fun o =>
          match o with
          | none => false
          | some blocker => task_status blocker = "done".toList)

theorem readyPred_congr (now : Int) (t : Task) {m₁ m₂ : TaskIndex}
    (h : ∀ k, lookupIndex m₁ k = lookupIndex m₂ k) :
    readyPred now m₁ t = readyPred now m₂ t := by
  unfold readyPred
  rw [blockers_done_congr t h]

/-- Distinct-id pairwise hypothesis used throughout. -/
def DistinctIds (tasks : List Task) : Prop :=
  tasks.Pairwise (fun x y => idStr x ≠ idStr y)

instance (tasks : List Task) : Decidable (DistinctIds tasks) := by
  unfold DistinctIds
  infer_instance

theorem readyTasks_perm {l₁ l₂ : List Task} (hp : List.Perm l₁ l₂)
    (hd : DistinctIds l₁) (now : Int) :
    List.Perm (readyTasks now l₁) (readyTasks now l₂) := by
  unfold readyTasks
  have hpred : ∀ t ∈ l₂, readyPred now (buildIndex l₂) t
      = readyPred now (buildIndex l₁) t :=
    fun t _ => readyPred_congr now t
      (fun k => (lookup_buildIndex_perm hp hd k).symm)
  rw [List.filter_congr hpred]
  exact hp.filter _

theorem sorted_ready_perm_eq {l₁ l₂ : List Task} (hp : List.Perm l₁ l₂)
    (hd : DistinctIds l₁) (now : Int) :
    List.insertionSort rankRel (readyTasks now l₁) =
      List.insertionSort rankRel (readyTasks now l₂) := by
  apply sorted_perm_eq (r := rankRel)
  · exact (List.perm_insertionSort _ _).trans
      ((readyTasks_perm hp hd now).trans (List.perm_insertionSort _ _).symm)
  · exact List.sorted_insertionSort rankRel _
  · exact List.sorted_insertionSort rankRel _
  · intro a ha b hb hab hba
    have ha' : a ∈ l₁ :=
      List.mem_of_mem_filter ((List.mem_insertionSort rankRel).mp ha)
    have hb' : b ∈ l₁ :=
      List.mem_of_mem_filter ((List.mem_insertionSort rankRel).mp hb)
    exact eq_of_key_eq_of_pairwise hd ha' hb'
      (rankLe_antisymm_key a b hab hba).2.2

/-- Permutation invariance of the full ranking pipeline. -/
theorem rank_perm_invariant {l₁ l₂ : List Task} (hp : List.Perm l₁ l₂)
    (hd : DistinctIds l₁) (now limit : Int) :
    rank_ready_drift_queue now l₂ limit = rank_ready_drift_queue now l₁ limit := by
  unfold rank_ready_drift_queue
  rw [sorted_ready_perm_eq hp hd now]

theorem rank_length (now : Int) (tasks : List Task) (limit : Int) :
    (rank_ready_drift_queue now tasks limit).length =
      min (max 1 limit).toNat (readyTasks now tasks).length := by
  unfold rank_ready_drift_queue
  simp [List.length_take]

theorem mem_dedupAux (x : Str) :
    ∀ (l seen : List Str),
      x ∈ dedupKeepFirst.go l seen ↔ (x ∈ l ∧ seen.contains x = false) := by
  intro l
  induction l with
  | nil => intro seen; simp [dedupKeepFirst.go]
  | cons y rest ih =>
    intro seen
    simp only [dedupKeepFirst.go]
    by_cases hy : seen.contains y
    · rw [if_pos hy, ih]
      constructor
      · rintro ⟨hx, hc⟩
        exact ⟨List.mem_cons_of_mem y hx, hc⟩
      · rintro ⟨hx, hc⟩
        rcases List.mem_cons.mp hx with rfl | hx'
        · rw [hy] at hc
          cases hc
        · exact ⟨hx', hc⟩
    · rw [if_neg hy]
      constructor
      · intro hmem
        rcases List.mem_cons.mp hmem with rfl | hx'
        · exact ⟨List.mem_cons_self x rest, by simpa using hy⟩
        · have := (ih (y :: seen)).mp hx'
          have hcons : (y :: seen).contains x = false := this.2
          have hne : x ≠ y := by
            intro hxy
            subst hxy
            simp [List.contains_cons] at hcons
          refine ⟨List.mem_cons_of_mem y this.1, ?_⟩
          simpa [List.contains_cons, hne] using hcons
      · rintro ⟨hx, hc⟩
        rcases List.mem_cons.mp hx with rfl | hx'
        · exact List.mem_cons_self x _
        · by_cases hne : x = y
          · subst hne
            exact List.mem_cons_self x _
          · refine List.mem_cons_of_mem y ((ih (y :: seen)).mpr ⟨hx', ?_⟩)
            have hxs : x ∉ seen := by
              simpa [List.contains] using hc
            simp [List.contains_cons, hne, hxs]

theorem mem_dedupKeepFirst (l : List Str) (x : Str) :
    x ∈ dedupKeepFirst l ↔ x ∈ l := by
  unfold dedupKeepFirst
  rw [mem_dedupAux]
  simp [List.contains]

theorem mem_sortedSet (ids : List Str) (x : Str) :
    x ∈ sortedSet ids ↔ x ∈ ids := by
  unfold sortedSet
  rw [List.mem_insertionSort, mem_dedupKeepFirst]

theorem lookupIndex_append_of_none {st : Store} {k : Str}
    (h : lookupIndex st k = none) (l₂ : Store) :
    lookupIndex (st ++ l₂) k = lookupIndex l₂ k := by
  induction st with
  | nil => rfl
  | cons p rest ih =>
    obtain ⟨pk, pv⟩ := p
    rw [lookupIndex_cons] at h
    by_cases hp : pk = k
    · rw [if_pos hp] at h
      cases h
    · rw [if_neg hp] at h
      rw [List.cons_append, lookupIndex_cons, if_neg hp]
      exact ih h

theorem countKey_append (st l₂ : Store) (k : Str) :
    countKey (st ++ l₂) k = countKey st k + countKey l₂ k := by
  unfold countKey
  rw [List.filter_append, List.length_append]

theorem countKey_eq_zero_of_lookup_none {st : Store} {k : Str}
    (h : lookupIndex st k = none) : countKey st k = 0 := by
  induction st with
  | nil => rfl
  | cons p rest ih =>
    obtain ⟨pk, pv⟩ := p
    rw [lookupIndex_cons] at h
    by_cases hp : pk = k
    · rw [if_pos hp] at h
      cases h
    · rw [if_neg hp] at h
      unfold countKey
      rw [List.filter_cons, if_neg (by simpa using hp)]
      exact ih h

/-! ### Claim theorems -/

theorem blockers_all_iff (m : TaskIndex) (bs : List Str) :
    (bs.all fun b =>
      match lookupIndex m b with
      | none => false
      | some blocker => task_status blocker = "done".toList) = true ↔
    ∀ b ∈ bs, ∃ tk, lookupIndex m b = some tk
      ∧ task_status tk = "done".toList := by
  rw [List.all_eq_true]
  constructor
  · intro h b hb
    have hx := h b hb
    cases hl : lookupIndex m b with
    | none => rw [hl] at hx; cases hx
    | some tk =>
      rw [hl] at hx
      exact ⟨tk, rfl, by simpa using hx⟩
  · intro h b hb
    obtain ⟨tk, hl, hst⟩ := h b hb
    rw [hl]
    simpa using hst

/-- C7: `blockers_done(task, index)` is true when `blocked_by` is empty
(or absent), and otherwise true exactly when every referenced blocker id
resolves in the index to a task whose status is `done`; a blocker id
missing from the index makes the result false (fail-closed), and the
function is total, so the missing-reference case cannot raise. -/
theorem C7_blockers_done_fail_closed (t : Task) (m : TaskIndex) :
    ((t.blocked_by = none ∨ t.blocked_by = some []) → blockers_done t m = true)
    ∧ (∀ bs, t.blocked_by = some bs →
        (blockers_done t m = true ↔
          ∀ b ∈ bs, ∃ tk, lookupIndex m b = some tk
            ∧ task_status tk = "done".toList))
    ∧ (∀ bs b, t.blocked_by = some bs → b ∈ bs →
        lookupIndex m b = none → blockers_done t m = false) := by
  refine ⟨?_, ?_, ?_⟩
  · rintro (h | h) <;> simp [blockers_done, h]
  · intro bs hbs
    cases bs with
    | nil => simp [blockers_done, hbs]
    | cons b rest =>
      unfold blockers_done
      rw [hbs]
      exact blockers_all_iff m (b :: rest)
  · intro bs b hbs hb hl
    cases hval : blockers_done t m
    · rfl
    · exfalso
      cases bs with
      | nil => cases hb
      | cons b0 rest =>
        unfold blockers_done at hval
        rw [hbs] at hval
        obtain ⟨tk, hlk, _⟩ := (blockers_all_iff m (b0 :: rest)).mp hval b hb
        rw [hl] at hlk
        cases hlk

/-- Concrete inputs for the C7 witness. -/
def c7TaskFree : Task := { id := some ("a".toList) }

/-- A task blocked by an id that is absent from the index. -/
def c7TaskBlocked : Task :=
  { id := some ("b".toList), blocked_by := some ["ghost".toList] }

theorem C7_blockers_done_fail_closed_witness :
    blockers_done c7TaskFree [] = true
    ∧ blockers_done c7TaskBlocked [(("a".toList), c7TaskFree)] = false :=
  ⟨(C7_blockers_done_fail_closed c7TaskFree []).1 (Or.inl rfl),
   (C7_blockers_done_fail_closed c7TaskBlocked
      [(("a".toList), c7TaskFree)]).2.2 ["ghost".toList] ("ghost".toList)
      rfl (by decide) (by decide)⟩

/-- C10: a task whose `status` field is missing, `None`, or the empty
string gets `task_status` `"open"` and is therefore active, so it is
counted by the scoreboard's active-task counter (the contract-coverage
denominator), and passes the activity gates of the ready queue and the
duplicate grouper. -/
theorem C10_missing_status_is_open (t : Task)
    (h : t.status = none ∨ t.status = some []) :
    task_status t = "open".toList ∧ is_active t = true
    ∧ (∀ now rest, (compute_scoreboard now (t :: rest)).active_tasks
        = (compute_scoreboard now rest).active_tasks + 1) := by
  have hts : task_status t = "open".toList := by
    rcases h with h | h <;> simp [task_status, h]
  have hia : is_active t = true := by
    simp only [is_active, hts]
    decide
  refine ⟨hts, hia, ?_⟩
  intro now rest
  show ((t :: rest).filter is_active).length
    = (rest.filter is_active).length + 1
  rw [List.filter_cons, if_pos (by simp [hia])]
  simp

theorem C10_missing_status_is_open_witness :
    task_status ({} : Task) = "open".toList ∧ is_active ({} : Task) = true
    ∧ (∀ now rest,
        (compute_scoreboard now (({} : Task) :: rest)).active_tasks
          = (compute_scoreboard now rest).active_tasks + 1) :=
  C10_missing_status_is_open {} (Or.inl rfl)

/-- C8: `load_drift_policy` sanitizes at load time: whatever the policy
file content (missing file, unparsable TOML, or any parsed data), the
returned policy has no negative limit (`max_auto_depth` at least 1) and an
allow-listed mode; concretely, `max_ready_drift_followups = -5` loads as 0
and an unrecognized mode string loads as `redirect`. -/
theorem C8_policy_sanitized (pl : PolicyLoad) :
    0 ≤ (load_drift_policy pl).cooldown_seconds
    ∧ 0 ≤ (load_drift_policy pl).max_auto_actions_per_hour
    ∧ 1 ≤ (load_drift_policy pl).max_auto_depth
    ∧ 0 ≤ (load_drift_policy pl).updates_check_interval_seconds
    ∧ 0 ≤ (load_drift_policy pl).loop_max_redrift_depth
    ∧ 0 ≤ (load_drift_policy pl).loop_max_ready_drift_followups
    ∧ (load_drift_policy pl).mode ∈ ALLOWED_MODES
    ∧ (load_drift_policy (.parsed
        { loop_safety := some { max_ready_drift_followups := some (-5) } })
          ).loop_max_ready_drift_followups = 0
    ∧ (load_drift_policy (.parsed { mode := some ("bogus".toList) })).mode
        = "redirect".toList := by
  refine ⟨?_, ?_, ?_, ?_, ?_, ?_, ?_, by decide, by decide⟩ <;>
    cases pl with
    | missing => decide
    | unparsable => decide
    | parsed d =>
      first
      | (show (0 : Int) ≤ _
         simp only [load_drift_policy]
         split <;> omega)
      | (show (1 : Int) ≤ _
         simp only [load_drift_policy]
         split <;> omega)
      | (simp only [load_drift_policy]
         split
         · exact List.mem_of_elem_eq_true (by assumption)
         · decide)

/-- C1: calling `_ensure_breaker_task` twice in sequence returns the
deterministically derived id `drift-breaker-<task_id>` both times; a
create is issued exactly when no task exists under the derived id, the two
calls never create twice, and on an initially-absent id the two calls
leave exactly one breaker task, blocked-by the triggering task and tagged
`drift` and `breaker`.  The task store is modelled from the spec (§6). -/
theorem C1_ensure_breaker_idempotent (st : Store) (t ts₁ ts₂ : Str) :
    (ensure_breaker_task st t ts₁).breaker_id = "drift-breaker-".toList ++ t
    ∧ (ensure_breaker_task (ensure_breaker_task st t ts₁).store t ts₂).breaker_id
        = "drift-breaker-".toList ++ t
    ∧ ((ensure_breaker_task st t ts₁).created = true
        ↔ lookupIndex st ("drift-breaker-".toList ++ t) = none)
    ∧ ¬((ensure_breaker_task st t ts₁).created = true
        ∧ (ensure_breaker_task (ensure_breaker_task st t ts₁).store t ts₂).created
            = true)
    ∧ (lookupIndex st ("drift-breaker-".toList ++ t) = none →
        (ensure_breaker_task st t ts₁).created = true
        ∧ (ensure_breaker_task (ensure_breaker_task st t ts₁).store t ts₂).created
            = false
        ∧ countKey (ensure_breaker_task (ensure_breaker_task st t ts₁).store t
              ts₂).store ("drift-breaker-".toList ++ t) = 1
        ∧ lookupIndex (ensure_breaker_task (ensure_breaker_task st t ts₁).store t
              ts₂).store ("drift-breaker-".toList ++ t)
            = some (breakerTaskRecord t ts₁)
        ∧ (breakerTaskRecord t ts₁).blocked_by = some [t]
        ∧ (breakerTaskRecord t ts₁).tags
            = some ["drift".toList, "breaker".toList]) := by
  cases hl : lookupIndex st ("drift-breaker-".toList ++ t) with
  | some tk =>
    have hred : ensure_breaker_task st t ts₁
        = ⟨"drift-breaker-".toList ++ t, st, false⟩ := by
      simp only [ensure_breaker_task]
      rw [hl]
    have hred2 : ensure_breaker_task (ensure_breaker_task st t ts₁).store t ts₂
        = ⟨"drift-breaker-".toList ++ t, st, false⟩ := by
      rw [hred]
      simp only [ensure_breaker_task]
      rw [hl]
    refine ⟨by rw [hred], by rw [hred2], ?_, ?_, ?_⟩
    · rw [hred]
      simp
    · rw [hred2, hred]
      simp
    · intro h
      exact Option.noConfusion h
  | none =>
    have hred : ensure_breaker_task st t ts₁
        = ⟨"drift-breaker-".toList ++ t,
            st ++ [("drift-breaker-".toList ++ t, breakerTaskRecord t ts₁)],
            true⟩ := by
      simp only [ensure_breaker_task]
      rw [hl]
    have hl2 : lookupIndex
        (st ++ [("drift-breaker-".toList ++ t, breakerTaskRecord t ts₁)])
        ("drift-breaker-".toList ++ t)
        = some (breakerTaskRecord t ts₁) := by
      rw [lookupIndex_append_of_none hl]
      simp [lookupIndex]
    have hred2 : ensure_breaker_task (ensure_breaker_task st t ts₁).store t ts₂
        = ⟨"drift-breaker-".toList ++ t,
            st ++ [("drift-breaker-".toList ++ t, breakerTaskRecord t ts₁)],
            false⟩ := by
      rw [hred]
      simp only [ensure_breaker_task]
      rw [hl2]
    refine ⟨by rw [hred], by rw [hred2], ?_, ?_, ?_⟩
    · rw [hred]
      simp
    · rw [hred2, hred]
      simp
    · intro _
      refine ⟨by rw [hred], by rw [hred2], ?_, ?_, rfl, rfl⟩
      · rw [hred2]
        show countKey
          (st ++ [("drift-breaker-".toList ++ t, breakerTaskRecord t ts₁)]) _ = 1
        rw [countKey_append, countKey_eq_zero_of_lookup_none hl]
        simp [countKey]
      · rw [hred2]
        exact hl2

theorem C1_ensure_breaker_idempotent_witness :
    lookupIndex ([] : Store) ("drift-breaker-".toList ++ "t1".toList) = none
    ∧ (ensure_breaker_task ([] : Store) ("t1".toList) ("ts0".toList)).created
        = true
    ∧ (ensure_breaker_task
        (ensure_breaker_task ([] : Store) ("t1".toList) ("ts0".toList)).store
        ("t1".toList) ("ts1".toList)).created = false
    ∧ countKey (ensure_breaker_task
        (ensure_breaker_task ([] : Store) ("t1".toList) ("ts0".toList)).store
        ("t1".toList) ("ts1".toList)).store
        ("drift-breaker-".toList ++ "t1".toList) = 1 :=
  have h := (C1_ensure_breaker_idempotent [] ("t1".toList) ("ts0".toList)
      ("ts1".toList)).2.2.2.2 rfl
  ⟨rfl, h.1, h.2.1, h.2.2.1⟩

/-- C9 counterexample: in a lost race (the `wg show` lookup reports
not-found, but a task under the derived id exists by the time of
`wg add`), `_ensure_breaker_task` does not retry and report — the create
error propagates and the invocation aborts (`EnsureOutcome.raised`). -/
theorem C9_idempotency_race_counterexample :
    ensure_breaker_task_race []
      [(("drift-breaker-".toList ++ "t1".toList),
        breakerTaskRecord ("t1".toList) ("ts0".toList))]
      ("t1".toList) ("ts1".toList)
      = EnsureOutcome.raised
          [(("drift-breaker-".toList ++ "t1".toList),
            breakerTaskRecord ("t1".toList) ("ts0".toList))]
    ∧ ∀ bid stOut c,
        ensure_breaker_task_race []
          [(("drift-breaker-".toList ++ "t1".toList),
            breakerTaskRecord ("t1".toList) ("ts0".toList))]
          ("t1".toList) ("ts1".toList) ≠ EnsureOutcome.ok bid stOut c := by
  constructor
  · decide
  · intro bid stOut c h
    rw [show ensure_breaker_task_race []
        [(("drift-breaker-".toList ++ "t1".toList),
          breakerTaskRecord ("t1".toList) ("ts0".toList))]
        ("t1".toList) ("ts1".toList)
        = EnsureOutcome.raised
            [(("drift-breaker-".toList ++ "t1".toList),
              breakerTaskRecord ("t1".toList) ("ts0".toList))] by decide] at h
    cases h

/-- C9 as amended: when the `wg show` lookup misses but the create-time
store already holds the derived id, the `wg add` failure (NotCreatable,
modelled from spec §6) propagates out of `_ensure_breaker_task`: the
invocation aborts with the raised error — it is neither retried nor
silently swallowed, and no task is created. -/
theorem C9_idempotency_race_raises (stShow stCreate : Store) (t ts : Str)
    (tk : Task)
    (h1 : lookupIndex stShow ("drift-breaker-".toList ++ t) = none)
    (h2 : lookupIndex stCreate ("drift-breaker-".toList ++ t) = some tk) :
    ensure_breaker_task_race stShow stCreate t ts
      = EnsureOutcome.raised stCreate := by
  simp only [ensure_breaker_task_race]
  rw [h1, h2]

theorem C9_idempotency_race_raises_witness :
    lookupIndex ([] : Store) ("drift-breaker-".toList ++ "t1".toList) = none
    ∧ lookupIndex
        [(("drift-breaker-".toList ++ "t1".toList),
          breakerTaskRecord ("t1".toList) ("ts0".toList))]
        ("drift-breaker-".toList ++ "t1".toList)
        = some (breakerTaskRecord ("t1".toList) ("ts0".toList))
    ∧ ensure_breaker_task_race []
        [(("drift-breaker-".toList ++ "t1".toList),
          breakerTaskRecord ("t1".toList) ("ts0".toList))]
        ("t1".toList) ("ts1".toList)
        = EnsureOutcome.raised
            [(("drift-breaker-".toList ++ "t1".toList),
              breakerTaskRecord ("t1".toList) ("ts0".toList))] :=
  ⟨rfl, by decide,
   C9_idempotency_race_raises []
     [(("drift-breaker-".toList ++ "t1".toList),
       breakerTaskRecord ("t1".toList) ("ts0".toList))]
     ("t1".toList) ("ts1".toList)
     (breakerTaskRecord ("t1".toList) ("ts0".toList)) rfl (by decide)⟩

/-- Task fixture for the C5 counterexample: Scenario D's literal titles. -/
def c5StageA : Task :=
  { id := some ("drift-a".toList), title := some ("stage-a: Widget".toList),
    status := some ("open".toList) }

/-- Second Scenario-D fixture. -/
def c5StageB : Task :=
  { id := some ("drift-b".toList), title := some ("stage-b: Widget".toList),
    status := some ("open".toList) }

/-- C5 counterexample: for the claim's concrete titles `"stage-a: Widget"`
and `"stage-b: Widget"` (two active drift tasks), `normalize_drift_key`
keeps the stage prefixes — the regex strips only `redrift <stage>:`
markers — so the keys differ and no duplicate group is reported, refuting
the claim as stated. -/
theorem C5_stage_prefix_counterexample :
    is_drift_task c5StageA = true ∧ is_active c5StageA = true
    ∧ is_drift_task c5StageB = true ∧ is_active c5StageB = true
    ∧ normalize_drift_key c5StageA = "stage-a: widget".toList
    ∧ normalize_drift_key c5StageB = "stage-b: widget".toList
    ∧ normalize_drift_key c5StageA ≠ normalize_drift_key c5StageB
    ∧ find_duplicate_open_drift_groups [c5StageA, c5StageB] = [] := by
  decide

/-- Task fixture for the amended C5: a redrift stage-marker title. -/
def c5RedriftA : Task :=
  { id := some ("redrift-a".toList),
    title := some ("redrift analyze: Widget".toList),
    status := some ("open".toList) }

/-- Second amended-C5 fixture with a different stage marker. -/
def c5RedriftB : Task :=
  { id := some ("redrift-b".toList),
    title := some ("redrift build: Widget".toList),
    status := some ("open".toList) }

/-- C5 as amended: for two active drift tasks whose titles differ solely by
a leading recursive stage-marker segment of the form `redrift <stage>: `
(stage ∈ analyze/respec/design/build/execute/exec) — concretely
`"redrift analyze: Widget"` and `"redrift build: Widget"` —
`normalize_drift_key` maps both to `"widget"` and
`find_duplicate_open_drift_groups` returns exactly one duplicate group of
size 2 keyed on `"widget"`. -/
theorem C5_redrift_prefix_duplicates :
    is_drift_task c5RedriftA = true ∧ is_active c5RedriftA = true
    ∧ is_drift_task c5RedriftB = true ∧ is_active c5RedriftB = true
    ∧ normalize_drift_key c5RedriftA = "widget".toList
    ∧ normalize_drift_key c5RedriftB = "widget".toList
    ∧ find_duplicate_open_drift_groups [c5RedriftA, c5RedriftB]
        = [⟨"widget".toList, 2, ["redrift-a".toList, "redrift-b".toList]⟩] := by
  decide

/-- C4: a compaction plan never places the same id in both
`abandon_task_ids` and `defer_task_ids` — every deferral candidate is
filtered against the abandonment set. -/
theorem C4_compaction_disjoint (now : Int) (tasks : List Task) (mr md : Int) :
    ((_compact_plan now tasks mr md).defer_task_ids.all
      (fun i => !((_compact_plan now tasks mr md).abandon_task_ids.contains i)))
      = true := by
  rw [List.all_eq_true]
  intro i hi
  have hi' : i ∈ compactDeferIds now tasks mr md := hi
  unfold compactDeferIds at hi'
  have hcond := (List.mem_filter.mp hi').2
  have hnotmem : i ∉ compactAbandonIds tasks md := by
    intro hmem
    have hc : (compactAbandonIds tasks md).contains i = true := by
      simpa [List.contains] using hmem
    rw [hc] at hcond
    cases hcond
  show (!((sortedSet (compactAbandonIds tasks md)).contains i)) = true
  have hc2 : (sortedSet (compactAbandonIds tasks md)).contains i = false := by
    have hm : i ∉ sortedSet (compactAbandonIds tasks md) := fun hmem =>
      hnotmem ((mem_sortedSet _ _).mp hmem)
    simpa [List.contains] using hm
  rw [hc2]
  rfl

/-- Scenario B fixture for C3: 25 active drift tasks, all ready, none with
a contract. -/
def scenarioBTasks : List Task :=
  (List.range 25).map fun k =>
    { id := some ("drift-t".toList ++ natToStr k), status := some ("open".toList) }

/-- C3: `compute_scoreboard` derives the status top-down, first match
wins — `risk` when coverage < 0.70 or ready count > 20 or max redrift
depth > 2; else `watch` when coverage < 0.90 or ready count > 8 or max
depth > 1 or a duplicate group exists; else `healthy`.  In particular,
25 active ready drift tasks with zero contracts score `risk`. -/
theorem C3_scoreboard_status (now : Int) (tasks : List Task) :
    ((compute_scoreboard now tasks).status =
      (if (compute_scoreboard now tasks).active_contract_coverage < 7/10
          ∨ (compute_scoreboard now tasks).ready_drift > 20
          ∨ (compute_scoreboard now tasks).max_redrift_depth > 2 then
        "risk".toList
      else if (compute_scoreboard now tasks).active_contract_coverage < 9/10
          ∨ (compute_scoreboard now tasks).ready_drift > 8
          ∨ (compute_scoreboard now tasks).max_redrift_depth > 1
          ∨ (compute_scoreboard now tasks).duplicate_open_drift_groups ≠ [] then
        "watch".toList
      else "healthy".toList))
    ∧ (compute_scoreboard 0 scenarioBTasks).status = "risk".toList
    ∧ (compute_scoreboard 0 scenarioBTasks).ready_drift = 25
    ∧ (compute_scoreboard 0 scenarioBTasks).active_tasks = 25
    ∧ (compute_scoreboard 0 scenarioBTasks).active_contract_coverage = 0 := by
  have hA : (scenarioBTasks.filter is_active).length = 25 := by decide
  have hC : ((scenarioBTasks.filter is_active).filter has_contract).length
      = 0 := by decide
  have hR : (rank_ready_drift_queue 0 scenarioBTasks 10000).length = 25 := by
    decide
  refine ⟨rfl, ?_, hR, hA, ?_⟩
  · show (if _ ∨ (rank_ready_drift_queue 0 scenarioBTasks 10000).length > 20
        ∨ _ then "risk".toList else _) = "risk".toList
    rw [if_pos (Or.inr (Or.inl (by rw [hR]; omega)))]
  · show (if (scenarioBTasks.filter is_active).length = 0 then (1 : ℚ)
        else (((scenarioBTasks.filter is_active).filter has_contract).length : ℚ)
          / ((scenarioBTasks.filter is_active).length : ℚ)) = 0
    rw [hA, hC]
    norm_num

/-- The verdict's ready count is the ranked-queue length, i.e. the number
of ready drift tasks capped at the 10,000-entry call-site limit. -/
theorem loop_safety_ready_eq (now : Int) (task_id : Str) (tasks : List Task)
    (policy : DriftPolicy) :
    (_compute_loop_safety now task_id tasks policy).ready_drift_followups
      = min 10000 (readyTasks now tasks).length := by
  show (rank_ready_drift_queue now tasks 10000).length = _
  rw [rank_length]
  have h10 : (max (1 : Int) 10000).toNat = 10000 := by decide
  rw [h10]

/-- Fixture for the C2 counterexample: one ready active drift task,
replicated beyond the ranker's 10,000-entry call-site limit. -/
def c2Task : Task :=
  { id := some ("drift-x".toList), status := some ("open".toList) }

/-- C2 counterexample: with 10,001 ready drift tasks in the snapshot, the
verdict's `ready_drift_followups` is 10,000 — the ranking helper is called
with `limit=10_000`, so the count is truncated, refuting the claim's
"unbounded limit, no truncation". -/
theorem C2_truncation_counterexample :
    (readyTasks 0 (List.replicate 10001 c2Task)).length = 10001
    ∧ (_compute_loop_safety 0 ("x".toList) (List.replicate 10001 c2Task)
        defaultDriftPolicy).ready_drift_followups = 10000
    ∧ (10000 : Nat) ≠ 10001 := by
  have hready : readyTasks 0 (List.replicate 10001 c2Task)
      = List.replicate 10001 c2Task := by
    unfold readyTasks
    rw [List.filter_eq_self]
    intro a ha
    rw [List.eq_of_mem_replicate ha]
    show readyPred 0 (buildIndex (List.replicate 10001 c2Task)) c2Task = true
    unfold readyPred
    have hb : blockers_done c2Task
        (buildIndex (List.replicate 10001 c2Task)) = true := rfl
    rw [hb]
    decide
  refine ⟨?_, ?_, by decide⟩
  · rw [hready, List.length_replicate]
  · rw [loop_safety_ready_eq, hready, List.length_replicate]
    omega

/-- C2 as amended: the loop-safety verdict has `observed_depth` equal to
the redrift depth of the id when it is a recursive-family id (prefix
`redrift-`) and 0 otherwise; `ready_count` equal to the number of ready
drift tasks capped at the 10,000-entry call-site limit; `cycle_detected`
from the DFS rooted at the id; the three reasons accumulate independently;
and `followups_blocked` holds iff `policy.block_followup_creation` holds
and at least one reason was recorded. -/
theorem C2_loop_safety_verdict (now : Int) (task_id : Str)
    (tasks : List Task) (policy : DriftPolicy) :
    ((_compute_loop_safety now task_id tasks policy).observed_redrift_depth
      = (if ("redrift-".toList).isPrefixOf task_id then redrift_depth task_id
         else 0))
    ∧ ((_compute_loop_safety now task_id tasks policy).ready_drift_followups
      = min 10000 (readyTasks now tasks).length)
    ∧ ((_compute_loop_safety now task_id tasks policy).blocked_by_cycle
      = detect_cycle_from task_id (buildIndex tasks))
    ∧ ((_compute_loop_safety now task_id tasks policy).reasons
      = (if ((_compute_loop_safety now task_id tasks policy
            ).observed_redrift_depth : Int)
            > (_compute_loop_safety now task_id tasks policy).max_redrift_depth
         then ["redrift_depth_exceeded (".toList
            ++ natToStr (_compute_loop_safety now task_id tasks policy
                ).observed_redrift_depth
            ++ " > ".toList
            ++ intToStr (_compute_loop_safety now task_id tasks policy
                ).max_redrift_depth
            ++ ")".toList]
         else [])
        ++ (if ((_compute_loop_safety now task_id tasks policy
            ).ready_drift_followups : Int)
            > (_compute_loop_safety now task_id tasks policy
                ).max_ready_drift_followups
         then ["ready_drift_queue_exceeded (".toList
            ++ natToStr (_compute_loop_safety now task_id tasks policy
                ).ready_drift_followups
            ++ " > ".toList
            ++ intToStr (_compute_loop_safety now task_id tasks policy
                ).max_ready_drift_followups
            ++ ")".toList]
         else [])
        ++ (if (_compute_loop_safety now task_id tasks policy).blocked_by_cycle
              = true
         then ["blocked_by_cycle_detected".toList]
         else []))
    ∧ ((_compute_loop_safety now task_id tasks policy).followups_blocked = true
      ↔ (policy.loop_block_followup_creation = true
          ∧ (_compute_loop_safety now task_id tasks policy).reasons ≠ [])) := by
  refine ⟨rfl, loop_safety_ready_eq now task_id tasks policy, rfl, rfl, ?_⟩
  · show ((policy.loop_block_followup_creation
      && !(_compute_loop_safety now task_id tasks policy).reasons.isEmpty)
        = true) ↔ _
    rw [Bool.and_eq_true]
    constructor
    · rintro ⟨hb, hne⟩
      refine ⟨hb, ?_⟩
      intro hnil
      rw [hnil] at hne
      cases hne
    · rintro ⟨hb, hne⟩
      refine ⟨hb, ?_⟩
      cases hl : (_compute_loop_safety now task_id tasks policy).reasons with
      | nil => exact absurd hl hne
      | cons r rest => rfl

theorem epochOfField_strOr (v : Option Str) :
    epochOfField (some (strOr v)) = epochOfField v := by
  cases v <;> rfl

/-- C6: on a task list with pairwise-distinct ids, `rank_ready_drift_queue`
is a deterministic total order — any permutation of the input yields the
same output (hence so does running it twice); within a priority tier the
entries ascend by creation epoch (a missing timestamp counting as epoch 0)
and then by id; and the output is truncated to `max(limit, 1)` entries. -/
theorem C6_rank_total_order (now : Int) (tasks : List Task) (limit : Int)
    (hd : DistinctIds tasks) :
    (∀ tasks₂, List.Perm tasks₂ tasks →
        rank_ready_drift_queue now tasks₂ limit
          = rank_ready_drift_queue now tasks limit)
    ∧ (rank_ready_drift_queue now tasks limit).Pairwise (fun e₁ e₂ =>
        e₂.priority ≤ e₁.priority
        ∧ (e₁.priority = e₂.priority →
            epochOfField (some e₁.created_at) < epochOfField (some e₂.created_at)
            ∨ (epochOfField (some e₁.created_at)
                  = epochOfField (some e₂.created_at)
                ∧ lexLt e₁.task_id e₂.task_id = true)))
    ∧ (rank_ready_drift_queue now tasks limit).length
        = min (max 1 limit).toNat (readyTasks now tasks).length
    ∧ (∀ u : Task, u.created_at = none → _task_epoch u = 0) := by
  refine ⟨?_, ?_, rank_length now tasks limit, ?_⟩
  · intro tasks₂ hp
    exact rank_perm_invariant hp.symm hd now limit
  · have hsorted : (List.insertionSort rankRel (readyTasks now tasks)).Pairwise
        rankRel :=
      List.sorted_insertionSort rankRel _
    have hdr : (readyTasks now tasks).Pairwise (fun x y => idStr x ≠ idStr y) :=
      List.Pairwise.sublist (List.filter_sublist _) hd
    have hdsorted : (List.insertionSort rankRel (readyTasks now tasks)).Pairwise
        (fun x y => idStr x ≠ idStr y) := by
      refine (List.Perm.pairwise_iff ?_
        (List.perm_insertionSort rankRel _)).mpr hdr
      intro a b h heq
      exact h heq.symm
    have hcomb := hsorted.and hdsorted
    have htake : ((List.insertionSort rankRel (readyTasks now tasks)).take
        (max 1 limit).toNat).Pairwise
          (fun x y => rankRel x y ∧ idStr x ≠ idStr y) :=
      List.Pairwise.sublist (List.take_sublist _ _) hcomb
    unfold rank_ready_drift_queue
    rw [List.pairwise_map]
    refine htake.imp ?_
    intro a b hab
    obtain ⟨hr, hne⟩ := hab
    have hca : epochOfField (some (queueProject a).created_at) = _task_epoch a :=
      epochOfField_strOr a.created_at
    have hcb : epochOfField (some (queueProject b).created_at) = _task_epoch b :=
      epochOfField_strOr b.created_at
    unfold rankRel rankLe at hr
    by_cases hp : _queue_priority a = _queue_priority b
    · rw [if_pos hp] at hr
      refine ⟨le_of_eq hp.symm, fun _ => ?_⟩
      rw [hca, hcb]
      by_cases he : _task_epoch a = _task_epoch b
      · rw [if_pos he] at hr
        exact Or.inr ⟨he, lexLt_of_le_of_ne _ _ hr hne⟩
      · rw [if_neg he] at hr
        simp only [decide_eq_true_eq] at hr
        exact Or.inl hr
    · rw [if_neg hp] at hr
      simp only [decide_eq_true_eq] at hr
      exact ⟨le_of_lt hr, fun hpe => absurd hpe hp⟩
  · intro u h
    show epochOfField u.created_at = 0
    rw [h]
    rfl

/-- Fixture task for the C6 witness. -/
def c6TaskA : Task :=
  { id := some ("drift-a".toList), status := some ("open".toList) }

/-- Second fixture task for the C6 witness. -/
def c6TaskB : Task :=
  { id := some ("drift-b".toList), status := some ("open".toList) }

theorem C6_rank_total_order_witness :
    DistinctIds [c6TaskA, c6TaskB]
    ∧ rank_ready_drift_queue 0 [c6TaskB, c6TaskA] 10
        = rank_ready_drift_queue 0 [c6TaskA, c6TaskB] 10 :=
  ⟨by decide,
   (C6_rank_total_order 0 [c6TaskA, c6TaskB] 10 (by decide)).1
     [c6TaskB, c6TaskA] (List.Perm.swap c6TaskA c6TaskB [])⟩

end Driftdriver
